import Mathlib

/-!
Shallow embedding of the role-aware SQLite connection/service layer
(react-native-sqlite-dao-service): the declarative SQL builders and the
transaction guard of `SQLiteDAO`, the role-based connection manager
`DatabaseManager`, the per-table `BaseService`, and the `ServiceManager`
instance cache, translated from `src/database/*.ts`.

JavaScript dynamic values are modelled by `JSValue` (with explicit
`undefined` and `null`), objects keyed by strings by association lists,
the asynchronous engine/file-system collaborators by boolean oracles, and
each method by a pure function returning its result together with the
successor state and a trace of the side effects it performed.
-/

namespace DaoSvc

/-- A JavaScript value as far as the DAO layer inspects it: `undefined`,
`null`, a primitive (number/string/boolean rendered opaquely), or an
object together with its JSON serialization. -/
inductive JSValue where
  | undef : JSValue
  | vNull : JSValue
  | prim : String → JSValue
  | obj : String → JSValue
deriving DecidableEq, Repr

/-- JavaScript `typeof v === 'object'`; note `typeof null === 'object'`. -/
def JSValue.isObject : JSValue → Bool
  | .vNull => true
  | .obj _ => true
  | _ => false

/-- The `JSON.stringify` restricted to the values above. -/
def JSValue.stringify : JSValue → String
  | .undef => "undefined"
  | .vNull => "null"
  | .prim s => s
  | .obj j => j

/-- The `typeof col.value === 'object' ? JSON.stringify(col.value) : col.value`,
the serialization applied to every bound parameter in
`SQLiteDAO.insert`/`update`. -/
def JSValue.toParam (v : JSValue) : JSValue :=
  if v.isObject then .prim v.stringify else v

/-- The `Column` of `SQLiteDAO.ts`: `value?: any` , with `undefined` explicit. -/
structure Column where
  name : String
  value : JSValue
deriving DecidableEq, Repr

/-- The `WhereClause` of `SQLiteDAO.ts` (the `operator` field is never read by
the builders, which always emit `=`). -/
structure WhereClause where
  name : String
  value : JSValue
deriving DecidableEq, Repr

/-- The `OrderByClause`; `direction` is optional and defaulted to `ASC`. -/
structure OrderByClause where
  name : String
  direction : Option String
deriving DecidableEq, Repr

/-- The `LimitOffset`: both fields optional numbers. -/
structure LimitOffset where
  limit : Option Int
  offset : Option Int
deriving DecidableEq, Repr

/-- The `QueryTable` of `SQLiteDAO.ts`. -/
structure QueryTable where
  name : String
  cols : List Column
  wheres : Option (List WhereClause)
  orderbys : Option (List OrderByClause)
  limitOffset : Option LimitOffset
deriving DecidableEq, Repr

/-- The `SQLiteDAO.buildWhereClause(wheres, clause)`: empty or absent `wheres`
yields empty SQL; otherwise one `name = ?` conjunct per entry, values only
in the parameter list. -/
def buildWhereClause (wheres : Option (List WhereClause)) (clause : String) :
    String × List JSValue :=
  match wheres with
  | none => ("", [])
  | some [] => ("", [])
  | some ws =>
    (" " ++ clause ++ " " ++
       String.intercalate " AND " (ws.map (fun w => w.name ++ " = ?")),
     ws.map WhereClause.value)

/-- The `SQLiteDAO.buildSelectQuery(selectTable, suffix)`. JavaScript truthiness
makes a `limit`/`offset` of `0` contribute no clause. -/
def buildSelectQuery (t : QueryTable) (suffix : String) :
    String × List JSValue :=
  let columns :=
    if t.cols.length > 0 then
      String.intercalate ", " (t.cols.map Column.name)
    else "*"
  let whereClause := buildWhereClause t.wheres "WHERE"
  let sql := "SELECT " ++ columns ++ " FROM " ++ t.name ++ whereClause.1
  let sql :=
    match t.orderbys with
    | none => sql
    | some [] => sql
    | some os =>
      sql ++ " ORDER BY " ++
        String.intercalate ", "
          (os.map (fun o => o.name ++ " " ++ o.direction.getD "ASC"))
  let sql :=
    match t.limitOffset with
    | none => sql
    | some lo =>
      let sql := match lo.limit with
        | some n => if n ≠ 0 then sql ++ " LIMIT " ++ toString n else sql
        | none => sql
      match lo.offset with
      | some n => if n ≠ 0 then sql ++ " OFFSET " ++ toString n else sql
      | none => sql
  (sql ++ suffix, whereClause.2)

/-- The `col.value !== undefined && col.value !== null`. -/
def insertKeep (c : Column) : Bool :=
  c.value ≠ JSValue.undef && c.value ≠ JSValue.vNull

/-- The filter of `SQLiteDAO.insert`: keep columns whose value is neither
`undefined` nor `null`. -/
def insertValidCols (cols : List Column) : List Column :=
  cols.filter insertKeep

/-- The SQL-building part of `SQLiteDAO.insert` (everything before
`runSql`); the `throw` becomes `Except.error` with the source message. -/
def insertStmt (t : QueryTable) : Except String (String × List JSValue) :=
  let validCols := insertValidCols t.cols
  if validCols.length = 0 then .error "No valid columns to insert"
  else
    let columnNames := String.intercalate ", " (validCols.map Column.name)
    let placeholders := String.intercalate ", " (validCols.map (fun _ => "?"))
    .ok ("INSERT INTO " ++ t.name ++ " (" ++ columnNames ++ ") VALUES (" ++
          placeholders ++ ")",
         validCols.map (fun c => c.value.toParam))

/-- The `col.value !== undefined`. -/
def hasDefinedValue (c : Column) : Bool :=
  c.value ≠ JSValue.undef

/-- The `col.value !== undefined && !updateTable.wheres?.some(w => w.name ===
col.name)` (an absent WHERE list behaves as the empty one). -/
def updateKeep (ws : List WhereClause) (c : Column) : Bool :=
  hasDefinedValue c && !(ws.any (fun w => w.name = c.name))

/-- The filter of `SQLiteDAO.update`: SET columns are those with a defined
value whose name is not among the WHERE names. -/
def updateSetCols (t : QueryTable) : List Column :=
  t.cols.filter (updateKeep (t.wheres.getD []))

/-- The SQL-building part of `SQLiteDAO.update`. -/
def updateStmt (t : QueryTable) : Except String (String × List JSValue) :=
  let setCols := updateSetCols t
  if setCols.length = 0 then .error "No columns to update"
  else
    let setClause :=
      String.intercalate ", " (setCols.map (fun c => c.name ++ " = ?"))
    let params := setCols.map (fun c => c.value.toParam)
    let whereClause := buildWhereClause t.wheres "WHERE"
    if whereClause.1 = "" then
      .error "WHERE clause is required for UPDATE operation"
    else
      .ok ("UPDATE " ++ t.name ++ " SET " ++ setClause ++ whereClause.1,
           params ++ whereClause.2)

/-- The SQL-building part of `SQLiteDAO.delete`. -/
def deleteStmt (t : QueryTable) : Except String (String × List JSValue) :=
  let whereClause := buildWhereClause t.wheres "WHERE"
  if whereClause.1 = "" then
    .error "WHERE clause is required for DELETE operation"
  else
    .ok ("DELETE FROM " ++ t.name ++ whereClause.1, whereClause.2)

/-- Just the SQL text of a built statement. -/
def stmtSql (r : Except String (String × List JSValue)) :
    Except String String :=
  r.map Prod.fst

/-! ### Connection and transaction state of one `SQLiteDAO` handle -/

/-- The mutable fields of a `SQLiteDAO` instance that the connection and
transaction methods read or write: `isOpen`, whether `db` is non-null, and
the `inTransaction` flag. -/
structure DAOState where
  isOpen : Bool
  hasDb : Bool
  inTransaction : Bool
deriving DecidableEq, Repr

/-- The errors these methods throw, by source message. -/
inductive DAOErr where
  | notInitialized : DAOErr
  | alreadyInTransaction : DAOErr
  | noTransaction : DAOErr
  | validation : String → DAOErr
  | engine : String → DAOErr
deriving DecidableEq, Repr

/-- The `SQLiteDAO.isConnected()`. -/
def DAOState.isConnected (d : DAOState) : Bool :=
  d.isOpen && d.hasDb

/-- The `SQLiteDAO.runSql(sql, params)`: guard on `db`/`isOpen`, then hand the
statement to the engine, whose success is the oracle `engineOk`. The
returned list records the statements actually issued to the engine. -/
def runSql (d : DAOState) (engineOk : String → Bool) (sql : String) :
    Except DAOErr Unit × List String :=
  if d.hasDb ∧ d.isOpen then
    if engineOk sql then (.ok (), [sql]) else (.error (.engine sql), [sql])
  else (.error .notInitialized, [])

/-- The `SQLiteDAO.beginTransaction()`: fails fast (issuing nothing) when a
transaction is already in progress; sets the flag only after a successful
`BEGIN TRANSACTION`. -/
def beginTransaction (d : DAOState) (engineOk : String → Bool) :
    Except DAOErr Unit × DAOState × List String :=
  if d.inTransaction then (.error .alreadyInTransaction, d, [])
  else
    match runSql d engineOk "BEGIN TRANSACTION" with
    | (.ok _, issued) => (.ok (), { d with inTransaction := true }, issued)
    | (.error e, issued) => (.error e, d, issued)

/-- The `SQLiteDAO.commitTransaction()`. -/
def commitTransaction (d : DAOState) (engineOk : String → Bool) :
    Except DAOErr Unit × DAOState × List String :=
  if ¬ d.inTransaction then (.error .noTransaction, d, [])
  else
    match runSql d engineOk "COMMIT" with
    | (.ok _, issued) => (.ok (), { d with inTransaction := false }, issued)
    | (.error e, issued) => (.error e, d, issued)

/-- The `SQLiteDAO.rollbackTransaction()`. -/
def rollbackTransaction (d : DAOState) (engineOk : String → Bool) :
    Except DAOErr Unit × DAOState × List String :=
  if ¬ d.inTransaction then (.error .noTransaction, d, [])
  else
    match runSql d engineOk "ROLLBACK" with
    | (.ok _, issued) => (.ok (), { d with inTransaction := false }, issued)
    | (.error e, issued) => (.error e, d, issued)

/-- The `SQLiteDAO.update(updateTable)` as a whole: the validation throws happen
before any SQL is issued; on a well-formed table the built statement goes
through `runSql`. -/
def updateRun (d : DAOState) (engineOk : String → Bool) (t : QueryTable) :
    Except DAOErr Unit × DAOState × List String :=
  match updateStmt t with
  | .error m => (.error (.validation m), d, [])
  | .ok (sql, _params) =>
    match runSql d engineOk sql with
    | (r, issued) => (r, d, issued)

/-- The `SQLiteDAO.delete(deleteTable)` as a whole. -/
def deleteRun (d : DAOState) (engineOk : String → Bool) (t : QueryTable) :
    Except DAOErr Unit × DAOState × List String :=
  match deleteStmt t with
  | .error m => (.error (.validation m), d, [])
  | .ok (sql, _params) =>
    match runSql d engineOk sql with
    | (r, issued) => (r, d, issued)

/-! ### The column-constraint keyword scanner -/

/-- The `ColumnDefinition` of `SQLiteDAO.ts`; optional fields are `Option`,
`default` holds the token recorded by the scanner. -/
structure ColumnDefinition where
  name : String
  type : String
  option_key : Option String
  nullable : Option Bool
  default : Option String
  primary_key : Option Bool
  auto_increment : Option Bool
  unique : Option Bool
  constraints : Option String
deriving DecidableEq, Repr

/-- JavaScript `split(sep)` for a single-character separator, on character
lists: split at every occurrence, keeping empty segments (so the empty
input yields one empty segment). -/
def splitOnChar (sep : Char) : List Char → List (List Char)
  | [] => [[]]
  | c :: rest =>
    match splitOnChar sep rest with
    | [] => [[c]]
    | g :: gs => if c = sep then [] :: g :: gs else (c :: g) :: gs

/-- JavaScript `toUpperCase` (over the ASCII range the scanner compares
against). -/
def jsToUpper (s : String) : String :=
  String.mk (s.data.map Char.toUpper)

/-- JavaScript `split(' ')` on a string. -/
def jsSplitOnSpace (s : String) : List String :=
  (splitOnChar ' ' s.data).map String.mk

/-- JavaScript `trim()`: strip whitespace from both ends. -/
def jsTrim (s : String) : String :=
  String.mk
    (((s.data.dropWhile Char.isWhitespace).reverse.dropWhile
        Char.isWhitespace).reverse)

/-- The `col.constraints.toUpperCase().split(' ')`. -/
def constraintTokens (s : String) : List String :=
  jsSplitOnSpace (jsToUpper s)

/-- JavaScript `Array.prototype.indexOf`, as the index of the first
occurrence when there is one. -/
def firstIndexOf (ts : List String) (x : String) : Option Nat :=
  match ts with
  | [] => none
  | t :: rest =>
    if t = x then some 0
    else (firstIndexOf rest x).map (· + 1)

/-- The `SQLiteDAO.processColumnDefinition(col)`: converts the generic type via
`conv` (standing for `convertToSQLiteType`), then scans the uppercased,
space-split constraint string, pushing DDL fragments and setting flags in
source order; `option_key` is the fragments joined by spaces and trimmed.
An absent or empty (falsy) constraint string skips the scan. -/
def processColumnDefinition (conv : String → String)
    (col : ColumnDefinition) : ColumnDefinition :=
  let c0 : ColumnDefinition := { col with type := conv col.type }
  let toks : Option (List String) :=
    match col.constraints with
    | none => none
    | some s => if s = "" then none else some (constraintTokens s)
  match toks with
  | none => { c0 with option_key := some "" }
  | some ts =>
    let hasPrimary := ts.contains "PRIMARY"
    let c1 := if hasPrimary then { c0 with primary_key := some true } else c0
    let o1 := if hasPrimary then ["PRIMARY KEY"] else []
    let hasAutoInc :=
      ts.contains "AUTO_INCREMENT" || ts.contains "AUTOINCREMENT"
    let c2 :=
      if hasAutoInc then { c1 with auto_increment := some true } else c1
    let o2 := o1 ++
      (if hasAutoInc ∧ c1.primary_key = some true then ["AUTOINCREMENT"]
       else [])
    let hasNotNull := ts.contains "NOT" ∧ ts.contains "NULL"
    let c3 := if hasNotNull then { c2 with nullable := some false } else c2
    let o3 := o2 ++ (if hasNotNull then ["NOT NULL"] else [])
    let hasUnique := ts.contains "UNIQUE"
    let c4 := if hasUnique then { c3 with unique := some true } else c3
    let o4 := o3 ++
      (if hasUnique ∧ ¬ c3.primary_key = some true then ["UNIQUE"] else [])
    let dTok : Option String :=
      match firstIndexOf ts "DEFAULT" with
      | some i => if i + 1 < ts.length then some (ts.getD (i + 1) "") else none
      | none => none
    let c5 :=
      match dTok with
      | some v => { c4 with default := some v }
      | none => c4
    let o5 := o4 ++
      (match dTok with
       | some v => ["DEFAULT " ++ v]
       | none => [])
    { c5 with option_key := some (jsTrim (String.intercalate " " o5)) }

/-- The fragment list the specification describes, as independent conditions
on the uppercased space-split token list: `PRIMARY KEY` iff `PRIMARY` is
present, `AUTOINCREMENT` iff an auto-increment token and `PRIMARY` are both
present, `NOT NULL` iff `NOT` and `NULL` are both present, `UNIQUE` iff
`UNIQUE` is present and `PRIMARY` absent, `DEFAULT t` with `t` the token
immediately after the first `DEFAULT`. -/
def claimFragments (s : String) : List String :=
  let ts := constraintTokens s
  (if ts.contains "PRIMARY" then ["PRIMARY KEY"] else []) ++
  (if (ts.contains "AUTO_INCREMENT" ∨ ts.contains "AUTOINCREMENT") ∧
      ts.contains "PRIMARY" then ["AUTOINCREMENT"] else []) ++
  (if ts.contains "NOT" ∧ ts.contains "NULL" then ["NOT NULL"] else []) ++
  (if ts.contains "UNIQUE" ∧ ¬ ts.contains "PRIMARY" then ["UNIQUE"]
   else []) ++
  (match tokenAfterFirstDefault ts with
   | some v => ["DEFAULT " ++ v]
   | none => [])
where
  /-- The token immediately following the first `DEFAULT`, when any. -/
  tokenAfterFirstDefault : List String → Option String
    | [] => none
    | t :: rest =>
      if t = "DEFAULT" then rest.head? else tokenAfterFirstDefault rest

/-! ### Association lists for JavaScript string-keyed objects/maps -/

/-- First value bound to `k`, as in reading `obj[k]`. -/
def alookup {α : Type} : List (String × α) → String → Option α
  | [], _ => none
  | (k', v) :: rest, k => if k' = k then some v else alookup rest k

/-- Assignment `obj[k] = v`: replace the binding when present, else append. -/
def aset {α : Type} : List (String × α) → String → α → List (String × α)
  | [], k, v => [(k, v)]
  | (k', v') :: rest, k, v =>
    if k' = k then (k, v) :: rest else (k', v') :: aset rest k v

/-- The `delete obj[k]`. -/
def aerase {α : Type} (l : List (String × α)) (k : String) :
    List (String × α) :=
  l.filter (fun p => ¬ p.1 = k)

/-! ### The role-based connection manager (`DatabaseManager.ts`) -/

/-- The `RoleConfig`; an absent `optionalDatabases` behaves as the empty list. -/
structure RoleConfig where
  roleName : String
  requiredDatabases : List String
  optionalDatabases : List String
  priority : Option Int
deriving DecidableEq, Repr

/-- The static fields of `DatabaseManager` that the claims exercise.
Connection handles are identified by numeric references (`Nat`), with
`nextDao` supplying a fresh reference per `DatabaseFactory.openExisting`;
`schemas` lists the keys present in the static `schemaConfigurations`. -/
structure DBMState where
  connections : List (String × Nat)
  roleRegistry : List (String × RoleConfig)
  currentUserRoles : List String
  currentRole : Option String
  schemas : List String
  nextDao : Nat
deriving DecidableEq, Repr

/-- Errors thrown by the manager, by source message. -/
inductive DBError where
  | accessDenied : String → DBError
  | notConnected : String → DBError
  | unknownRole : String → DBError
  | initFailed : List String → DBError
deriving DecidableEq, Repr

/-- Observable connection side effects of a manager method: a successful
`DatabaseFactory.openExisting` for a key, or a `dao.close()` call for a
key. -/
inductive DMEvent where
  | opened : String → DMEvent
  | closedEv : String → DMEvent
deriving DecidableEq, Repr

/-- JavaScript `Set.add`: insertion order, duplicates ignored. -/
def setAdd (l : List String) (x : String) : List String :=
  if l.contains x then l else l ++ [x]

/-- The body of the `Set`-building loop shared by
`getCurrentUserDatabases` and `cleanupUnusedConnections`: add the required
then the optional databases of one registered role. -/
def addRoleDatabases (reg : List (String × RoleConfig)) (acc : List String)
    (roleName : String) : List String :=
  match alookup reg roleName with
  | none => acc
  | some rc => (rc.requiredDatabases ++ rc.optionalDatabases).foldl setAdd acc

/-- The wanted-database set of a role list: `{'core'}` union the required
and optional keys of every registered role in the list. -/
def wantedSet (reg : List (String × RoleConfig)) (roles : List String) :
    List String :=
  roles.foldl (addRoleDatabases reg) (setAdd [] "core")

/-- The `DatabaseManager.getCurrentUserDatabases()`. -/
def DatabaseManager.getCurrentUserDatabases (s : DBMState) : List String :=
  wantedSet s.roleRegistry s.currentUserRoles

/-- The `DatabaseManager.hasAccessToDatabase(dbKey)`. -/
def DatabaseManager.hasAccessToDatabase (s : DBMState) (k : String) : Bool :=
  (DatabaseManager.getCurrentUserDatabases s).contains k

/-- The `DatabaseManager.get(key)`: access check, then cache lookup; the body
performs no writes, which the unchanged state in every branch renders. -/
def DatabaseManager.get (s : DBMState) (k : String) :
    Except DBError Nat × DBMState :=
  if ¬ DatabaseManager.hasAccessToDatabase s k then
    (.error (.accessDenied k), s)
  else
    match alookup s.connections k with
    | none => (.error (.notConnected k), s)
    | some dao => (.ok dao, s)

/-- The per-key loop of `initializeUserRoleConnections`: skip keys already
connected; open the rest (schema lookup plus `openExisting` plus the
integrity check collapse into the oracle `openOk`), recording failures of
keys required by an active role. Sibling order inside the `Promise.all`
fan-out is unspecified in the source; the list order stands for one
admissible schedule. -/
def initLoop (schemas : List String) (openOk : String → Bool)
    (isReq : String → Bool) :
    List String → List (String × Nat) → Nat →
    List (String × Nat) × Nat × List DMEvent × List String
  | [], conns, nextDao => (conns, nextDao, [], [])
  | dbKey :: rest, conns, nextDao =>
    if (alookup conns dbKey).isSome then
      initLoop schemas openOk isReq rest conns nextDao
    else if schemas.contains dbKey ∧ openOk dbKey then
      let r := initLoop schemas openOk isReq rest
        (aset conns dbKey nextDao) (nextDao + 1)
      (r.1, r.2.1, .opened dbKey :: r.2.2.1, r.2.2.2)
    else
      let r := initLoop schemas openOk isReq rest conns nextDao
      (r.1, r.2.1, r.2.2.1,
       if isReq dbKey then dbKey :: r.2.2.2 else r.2.2.2)

/-- The `dbKey` is required by some currently active registered role. -/
def isRequiredDb (s : DBMState) (dbKey : String) : Bool :=
  s.currentUserRoles.any (fun roleName =>
    match alookup s.roleRegistry roleName with
    | some rc => rc.requiredDatabases.contains dbKey
    | none => false)

/-- The `DatabaseManager.initializeUserRoleConnections()`: opens every wanted
key not already connected; returns the new state, the open trace, and the
keys whose failure is fatal (required by an active role). -/
def initializeUserRoleConnections (s : DBMState) (openOk : String → Bool) :
    DBMState × List DMEvent × List String :=
  let r := initLoop s.schemas openOk (isRequiredDb s)
    (DatabaseManager.getCurrentUserDatabases s) s.connections s.nextDao
  ({ s with connections := r.1, nextDao := r.2.1 }, r.2.2.1, r.2.2.2)

/-- The per-key loop of `cleanupUnusedConnections`: close each listed key
that is connected; a close failure is logged and leaves the stale entry in
the map (the `delete` is skipped). -/
def closeLoop (closeOk : String → Bool) :
    List String → List (String × Nat) →
    List (String × Nat) × List DMEvent
  | [], conns => (conns, [])
  | dbKey :: rest, conns =>
    if (alookup conns dbKey).isSome then
      if closeOk dbKey then
        let r := closeLoop closeOk rest (aerase conns dbKey)
        (r.1, .closedEv dbKey :: r.2)
      else
        let r := closeLoop closeOk rest conns
        (r.1, .closedEv dbKey :: r.2)
    else closeLoop closeOk rest conns

/-- The `DatabaseManager.cleanupUnusedConnections(previousRoles)`: close the
keys wanted before but not wanted now (the default key, being in both
sets, never qualifies). -/
def cleanupUnusedConnections (s : DBMState) (closeOk : String → Bool)
    (previousRoles : List String) : DBMState × List DMEvent :=
  let previousDatabases := wantedSet s.roleRegistry previousRoles
  let currentDatabases := DatabaseManager.getCurrentUserDatabases s
  let databasesToClose :=
    previousDatabases.filter (fun db => ¬ currentDatabases.contains db)
  let r := closeLoop closeOk databasesToClose s.connections
  ({ s with connections := r.1 }, r.2)

/-- The `DatabaseManager.setCurrentUserRoles(userRoles, primaryRole)`: validate
the roles, install them, await all opens
(`initializeUserRoleConnections`), and only then close the no-longer
wanted keys. Failures keep the state reached so far, as in the source. -/
def DatabaseManager.setCurrentUserRoles (s : DBMState)
    (openOk closeOk : String → Bool) (userRoles : List String)
    (primaryRole : Option String) :
    Except DBError Unit × DBMState × List DMEvent :=
  match userRoles.find? (fun r => ¬ (alookup s.roleRegistry r).isSome) with
  | some r => (.error (.unknownRole r), s, [])
  | none =>
    let previousRoles := s.currentUserRoles
    let s1 := { s with
      currentUserRoles := userRoles,
      currentRole := primaryRole.orElse (fun _ => userRoles.head?) }
    let r := initializeUserRoleConnections s1 openOk
    if r.2.2 ≠ [] then (.error (.initFailed r.2.2), r.1, r.2.1)
    else
      let c := cleanupUnusedConnections r.1 closeOk previousRoles
      (.ok (), c.1, r.2.1 ++ c.2)

/-! ### Manager state together with the handles it references -/

/-- The manager's static state plus the store of `SQLiteDAO` instances the
numeric references point into. -/
structure World where
  mgr : DBMState
  heap : Nat → DAOState

/-- Errors out of `executeCrossSchemaTransaction`: the up-front access and
lookup failures, a callback rejection, or a failure from one handle's
begin/commit/rollback. -/
inductive CrossErr where
  | accessDenied : String → CrossErr
  | notConnected : String → CrossErr
  | cbError : String → CrossErr
  | daoError : Nat → DAOErr → CrossErr
deriving DecidableEq, Repr

/-- The `schemas.reduce` building the `daos` record: each key resolved
through `DatabaseManager.get`, the first failure propagating. -/
def resolveDaos (s : DBMState) : List String →
    Except CrossErr (List (String × Nat))
  | [] => .ok []
  | k :: rest =>
    match DatabaseManager.get s k with
    | (.ok dao, _) => (resolveDaos s rest).map (fun l => (k, dao) :: l)
    | (.error (DBError.accessDenied _), _) => .error (.accessDenied k)
    | (.error _, _) => .error (.notConnected k)

/-- One `Promise.all` fan-out of a transaction operation over every named
handle: every operation runs (all side effects land in the heap), and the
rejections are collected in schedule order — `Promise.all` surfaces the
first of them. -/
def txPhase
    (op : DAOState → (String → Bool) → Except DAOErr Unit × DAOState × List String)
    (eng : Nat → String → Bool) (heap : Nat → DAOState) :
    List (String × Nat) → (Nat → DAOState) × List (Nat × DAOErr)
  | [] => (heap, [])
  | (_, dao) :: rest =>
    let r := op (heap dao) (eng dao)
    let rRest := txPhase op eng (Function.update heap dao r.2.1) rest
    match r.1 with
    | .ok _ => (rRest.1, rRest.2)
    | .error e => (rRest.1, (dao, e) :: rRest.2)

/-- The `catch` block of `executeCrossSchemaTransaction`: `await
Promise.all(rollbacks)` and then `throw error`. A rejection of the
rollback fan-out propagates out of the `catch` itself, so it replaces the
original error; only when every rollback succeeds does the original error
reach the caller. -/
def rollbackAndRethrow (w : World) (daos : List (String × Nat))
    (engR : Nat → String → Bool) (original : CrossErr) :
    Except CrossErr Unit × World :=
  let r := txPhase rollbackTransaction engR w.heap daos
  match r.2 with
  | (dao, e) :: _ => (.error (.daoError dao e), ⟨w.mgr, r.1⟩)
  | [] => (.error original, ⟨w.mgr, r.1⟩)

/-- The `DatabaseManager.executeCrossSchemaTransaction(schemas, callback)`.
The callback is summarized by its outcome `cb`; its own statements run on
the handles but touch none of the state modelled here. `engB`, `engC`,
`engR` are the engine oracles for the begin, commit and rollback phases. -/
def DatabaseManager.executeCrossSchemaTransaction (w : World)
    (keys : List String) (cb : Except String Unit)
    (engB engC engR : Nat → String → Bool) :
    Except CrossErr Unit × World :=
  match keys.find? (fun k => ¬ DatabaseManager.hasAccessToDatabase w.mgr k) with
  | some k => (.error (.accessDenied k), w)
  | none =>
    match resolveDaos w.mgr keys with
    | .error e => (.error e, w)
    | .ok daos =>
      let rB := txPhase beginTransaction engB w.heap daos
      match rB.2 with
      | (dao, e) :: _ =>
        rollbackAndRethrow ⟨w.mgr, rB.1⟩ daos engR (.daoError dao e)
      | [] =>
        match cb with
        | .error m => rollbackAndRethrow ⟨w.mgr, rB.1⟩ daos engR (.cbError m)
        | .ok _ =>
          let rC := txPhase commitTransaction engC rB.1 daos
          match rC.2 with
          | (dao, e) :: _ =>
            rollbackAndRethrow ⟨w.mgr, rC.1⟩ daos engR (.daoError dao e)
          | [] => (.ok (), ⟨w.mgr, rC.1⟩)

/-! ### `BaseService` (`DatabaseFactory.ts`) and `ServiceManager` -/

/-- The fields of a `BaseService` that `close()` touches: the lazily
acquired DAO reference, the two lifecycle flags, and the two handler
maps (kept as their key lists). -/
structure ServiceState where
  daoRef : Option Nat
  isOpened : Bool
  isInitialized : Bool
  eventListeners : List String
  errorHandlers : List String
deriving DecidableEq, Repr

/-- The `SQLiteDAO.close()`: a no-op on an already closed handle; otherwise ask
the engine to close (oracle `engineOk`) and on success clear `isOpen` and
null out `db`, leaving `inTransaction` untouched. -/
def daoClose (d : DAOState) (engineOk : Bool) : Except DAOErr DAOState :=
  if d.hasDb ∧ d.isOpen then
    if engineOk then .ok { d with isOpen := false, hasDb := false }
    else .error (.engine "close")
  else .ok d

/-- The `BaseService.close()`: close the underlying shared DAO, reset the
service's own flags and clear its handler maps. The manager's connection
map is never consulted or written. -/
def BaseService.close (w : World) (svc : ServiceState) (engineOk : Bool) :
    Except DAOErr (World × ServiceState) :=
  match svc.daoRef with
  | some dao =>
    match daoClose (w.heap dao) engineOk with
    | .error e => .error e
    | .ok d' =>
      .ok (⟨w.mgr, Function.update w.heap dao d'⟩,
           { svc with isOpened := false, isInitialized := false,
                      eventListeners := [], errorHandlers := [] })
  | none =>
    .ok (w, { svc with isOpened := false, isInitialized := false,
                       eventListeners := [], errorHandlers := [] })

/-- The per-table defaults `ServiceManager` stores for a (schema, table)
key; the concrete service class only selects the constructor and plays no
part in the instance cache. -/
structure ServiceConfigM where
  primaryKeyFields : List String
  autoInit : Bool
deriving DecidableEq, Repr

/-- The `ServiceManager` singleton's instance cache and configuration
registry; live `BaseService` instances are identified by numeric
references with `nextService` supplying fresh ones. -/
structure SMState where
  services : List (String × Nat)
  serviceConfigs : List (String × ServiceConfigM)
  nextService : Nat
deriving DecidableEq, Repr

/-- Failure of the optional `autoInit` run inside `createService`. -/
inductive SMErr where
  | initFailed : String → SMErr
deriving DecidableEq, Repr

/-- The `ServiceManager.createServiceKey(schemaName, tableName)`. -/
def createServiceKey (schemaName tableName : String) : String :=
  schemaName ++ ":" ++ tableName

/-- The `ServiceManager.createService`: return the cached instance when the key
is live; otherwise construct a fresh instance, cache it, and optionally
auto-initialize it (a failing `init` throws after the instance was already
cached). -/
def ServiceManager.createService (st : SMState)
    (schemaName tableName : String) (initOk : Bool) :
    Except SMErr Nat × SMState :=
  let serviceKey := createServiceKey schemaName tableName
  match alookup st.services serviceKey with
  | some sid => (.ok sid, st)
  | none =>
    let config := (alookup st.serviceConfigs serviceKey).getD ⟨["id"], false⟩
    let sid := st.nextService
    let st1 : SMState :=
      ⟨aset st.services serviceKey sid, st.serviceConfigs,
       st.nextService + 1⟩
    if config.autoInit then
      if initOk then (.ok sid, st1)
      else (.error (.initFailed serviceKey), st1)
    else (.ok sid, st1)

/-- The `ServiceManager.getService`: cached lookup, else `createService`. -/
def ServiceManager.getService (st : SMState) (schemaName tableName : String)
    (initOk : Bool) : Except SMErr Nat × SMState :=
  let serviceKey := createServiceKey schemaName tableName
  match alookup st.services serviceKey with
  | some sid => (.ok sid, st)
  | none => ServiceManager.createService st schemaName tableName initOk

/-- The `FindOptions` of `BaseService`. -/
structure FindOptions where
  orderBy : Option (List OrderByClause)
  limit : Option Int
  offset : Option Int
  columns : Option (List String)
deriving DecidableEq, Repr

/-- The `BaseService.buildSelectTable(conditions, options)`: columns copied when
requested, equality WHERE entries from the conditions record, `orderbys`
defaulted to the empty list, and `limitOffset` populated from the options
whenever they are defined (including a defined `0`). -/
def BaseService.buildSelectTable (tableName : String)
    (conditions : List (String × JSValue)) (options : FindOptions) :
    QueryTable :=
  let cols : List Column :=
    match options.columns with
    | some cs => if cs.length > 0 then cs.map (fun n => ⟨n, .undef⟩) else []
    | none => []
  let wheres : List WhereClause :=
    if conditions.length > 0 then conditions.map (fun p => ⟨p.1, p.2⟩) else []
  ⟨tableName, cols, some wheres, some (options.orderBy.getD []),
   some ⟨options.limit, options.offset⟩⟩

/-- The WHERE names of an optional WHERE list, `undefined` kept apart from
the empty list. -/
def whereNames (ws : Option (List WhereClause)) : Option (List String) :=
  ws.map (List.map WhereClause.name)

/-- Two query tables that agree on everything the specification calls the
"shape" — table name, column names, WHERE names, ORDER BY list,
LIMIT/OFFSET — and differ at most in the column/WHERE values. -/
def differOnlyInValues (t1 t2 : QueryTable) : Prop :=
  t1.name = t2.name ∧
  t1.cols.map Column.name = t2.cols.map Column.name ∧
  whereNames t1.wheres = whereNames t2.wheres ∧
  t1.orderbys = t2.orderbys ∧
  t1.limitOffset = t2.limitOffset

/-! ### Concrete fixtures used by witnesses and counterexamples -/

/-- A role wanting only database `a`. -/
def roleA : RoleConfig := ⟨"r1", ["a"], [], none⟩

/-- A role wanting only database `b`. -/
def roleB : RoleConfig := ⟨"r2", ["b"], [], none⟩

/-- Manager state: role `r1` active (wanted set `{core, a}`), a stale
connection cached for the unwanted key `b`, no connection for `core`. -/
def sW1 : DBMState :=
  ⟨[("b", 5)], [("r1", roleA)], ["r1"], some "r1", ["core", "a", "b"], 6⟩

/-- Manager state: role `r1` active, `core` and `a` connected, `r2`
registered, all three schemas present. -/
def sW3 : DBMState :=
  ⟨[("core", 0), ("a", 1)], [("r1", roleA), ("r2", roleB)], ["r1"],
   some "r1", ["core", "a", "b"], 2⟩

/-- The state after `setCurrentUserRoles(['r2'])` on `sW3`: `b` opened with
the fresh reference 2, `a` closed and dropped, `core` kept. -/
def sW3' : DBMState :=
  ⟨[("core", 0), ("b", 2)], [("r1", roleA), ("r2", roleB)], ["r2"],
   some "r2", ["core", "a", "b"], 3⟩

/-- Manager state for the cross-schema fixtures: one role wanting `a` and
`b`, both connected as handles 0 and 1. -/
def sW5 : DBMState :=
  ⟨[("a", 0), ("b", 1)], [("r", ⟨"r", ["a", "b"], [], none⟩)], ["r"],
   some "r", ["a", "b"], 2⟩

/-- World for the cross-schema fixtures: both handles open, no transaction
in progress. -/
def wW5 : World := ⟨sW5, fun _ => ⟨true, true, false⟩⟩

/-- Insert table whose second column value is `null`. -/
def tIns1 : QueryTable :=
  ⟨"t", [⟨"a", .prim "1"⟩, ⟨"b", .vNull⟩], none, none, none⟩

/-- The same insert table with a hostile defined value instead. -/
def tIns2 : QueryTable :=
  ⟨"t", [⟨"a", .prim "1"⟩, ⟨"b", .prim "x); DROP TABLE t"⟩], none, none,
   none⟩

/-- Delete-by-id table with an innocent WHERE value. -/
def tDel1 : QueryTable :=
  ⟨"users", [], some [⟨"id", .prim "7"⟩], none, none⟩

/-- The same delete table with a quote-and-keyword WHERE value. -/
def tDel2 : QueryTable :=
  ⟨"users", [], some [⟨"id", .prim "7 OR NOT id = 7"⟩], none, none⟩

/-! ## Theorems -/

/-- C1: for every key, `DatabaseManager.get` answers access-denied whenever
the key is outside the wanted set of the active roles — a cached
connection notwithstanding, since the access check precedes the cache
lookup — answers not-connected when the key is wanted but uncached, and in
every branch leaves the state (in particular the connection map)
untouched, never opening anything. -/
theorem get_access_control (s : DBMState) (k : String) :
    (DatabaseManager.hasAccessToDatabase s k = false →
       DatabaseManager.get s k = (.error (.accessDenied k), s)) ∧
    (DatabaseManager.hasAccessToDatabase s k = true →
       alookup s.connections k = none →
       DatabaseManager.get s k = (.error (.notConnected k), s)) ∧
    (DatabaseManager.get s k).2 = s := by
  refine ⟨fun h => ?_, fun h h2 => ?_, ?_⟩
  · simp [DatabaseManager.get, h]
  · simp [DatabaseManager.get, h, h2]
  · by_cases h : DatabaseManager.hasAccessToDatabase s k
    · cases h2 : alookup s.connections k <;>
        simp [DatabaseManager.get, h, h2]
    · simp [DatabaseManager.get, h]

/-- Witness for C1 on `sW1`: `b` is physically cached yet denied; `core` is
wanted yet unconnected. -/
theorem get_access_control_witness :
    DatabaseManager.get sW1 "b" = (.error (.accessDenied "b"), sW1) ∧
    DatabaseManager.get sW1 "core" =
      (.error (.notConnected "core"), sW1) :=
  ⟨(get_access_control sW1 "b").1 (by decide),
   (get_access_control sW1 "core").2.1 (by decide) (by decide)⟩

/-- C4: the transaction guard of one handle — `beginTransaction` fails fast
(no SQL issued, state unchanged) when a transaction is active,
`commitTransaction`/`rollbackTransaction` fail fast when none is, and
every successful call flips the `inTransaction` flag accordingly. -/
theorem transaction_single_depth (d : DAOState) (eng : String → Bool) :
    (d.inTransaction = true →
       beginTransaction d eng = (.error .alreadyInTransaction, d, [])) ∧
    (d.inTransaction = false →
       commitTransaction d eng = (.error .noTransaction, d, []) ∧
       rollbackTransaction d eng = (.error .noTransaction, d, [])) ∧
    (∀ r d' tr, beginTransaction d eng = (r, d', tr) → r = .ok () →
       d'.inTransaction = true) ∧
    (∀ r d' tr, commitTransaction d eng = (r, d', tr) → r = .ok () →
       d'.inTransaction = false) ∧
    (∀ r d' tr, rollbackTransaction d eng = (r, d', tr) → r = .ok () →
       d'.inTransaction = false) := by
  refine ⟨fun h => ?_, fun h => ?_, fun r d' tr h hr => ?_,
    fun r d' tr h hr => ?_, fun r d' tr h hr => ?_⟩
  · simp [beginTransaction, h]
  · constructor <;> simp [commitTransaction, rollbackTransaction, h]
  · by_cases hT : d.inTransaction
    · simp [beginTransaction, hT] at h
      simp [← h.1] at hr
    · rcases hR : runSql d eng "BEGIN TRANSACTION" with ⟨res, issued⟩
      cases res with
      | ok _ =>
        simp [beginTransaction, hT, hR] at h
        simp [← h.2.1]
      | error e =>
        simp [beginTransaction, hT, hR] at h
        simp [← h.1] at hr
  · by_cases hT : d.inTransaction
    · rcases hR : runSql d eng "COMMIT" with ⟨res, issued⟩
      cases res with
      | ok _ =>
        simp [commitTransaction, hT, hR] at h
        simp [← h.2.1]
      | error e =>
        simp [commitTransaction, hT, hR] at h
        simp [← h.1] at hr
    · simp [commitTransaction, hT] at h
      simp [← h.1] at hr
  · by_cases hT : d.inTransaction
    · rcases hR : runSql d eng "ROLLBACK" with ⟨res, issued⟩
      cases res with
      | ok _ =>
        simp [rollbackTransaction, hT, hR] at h
        simp [← h.2.1]
      | error e =>
        simp [rollbackTransaction, hT, hR] at h
        simp [← h.1] at hr
    · simp [rollbackTransaction, hT] at h
      simp [← h.1] at hr

/-- Witness for C4: a live transaction rejects `begin`, an idle handle
rejects `commit`, and a successful `begin` on the idle handle sets the
flag. -/
theorem transaction_single_depth_witness :
    beginTransaction ⟨true, true, true⟩ (fun _ => true) =
      (.error .alreadyInTransaction, ⟨true, true, true⟩, []) ∧
    commitTransaction ⟨true, true, false⟩ (fun _ => true) =
      (.error .noTransaction, ⟨true, true, false⟩, []) ∧
    (DAOState.mk true true true).inTransaction = true :=
  ⟨(transaction_single_depth ⟨true, true, true⟩ (fun _ => true)).1 rfl,
   ((transaction_single_depth ⟨true, true, false⟩ (fun _ => true)).2.1
      rfl).1,
   (transaction_single_depth ⟨true, true, false⟩ (fun _ => true)).2.2.1
     (.ok ()) ⟨true, true, true⟩ ["BEGIN TRANSACTION"] rfl rfl⟩

/-- C6: `update` rejects (issuing no SQL, leaving the handle untouched)
when the SET list — defined-valued columns not named in the WHERE list —
is empty, and when the WHERE list is empty or absent; `delete` rejects
when the WHERE list is empty or absent. -/
theorem update_delete_guard (d : DAOState) (eng : String → Bool)
    (t : QueryTable) :
    (updateSetCols t = [] →
       updateRun d eng t =
         (.error (.validation "No columns to update"), d, [])) ∧
    ((t.wheres = none ∨ t.wheres = some []) →
       ∃ m, updateRun d eng t = (.error (.validation m), d, [])) ∧
    ((t.wheres = none ∨ t.wheres = some []) →
       deleteRun d eng t =
         (.error (.validation "WHERE clause is required for DELETE operation"),
          d, [])) := by
  refine ⟨fun h => ?_, fun h => ?_, fun h => ?_⟩
  · simp [updateRun, updateStmt, h]
  · by_cases hs : updateSetCols t = []
    · exact ⟨"No columns to update", by simp [updateRun, updateStmt, hs]⟩
    · refine ⟨"WHERE clause is required for UPDATE operation", ?_⟩
      have hw : buildWhereClause t.wheres "WHERE" = ("", []) := by
        rcases h with h | h <;> simp [buildWhereClause, h]
      have hlen : (updateSetCols t).length ≠ 0 := by
        simpa [List.length_eq_zero] using hs
      simp [updateRun, updateStmt, hw, hlen]
  · have hw : buildWhereClause t.wheres "WHERE" = ("", []) := by
      rcases h with h | h <;> simp [buildWhereClause, h]
    simp [deleteRun, deleteStmt, hw]

/-- Witness for C6: a table with one defined column but an empty WHERE list
is rejected by both `update` and `delete` with nothing issued. -/
theorem update_delete_guard_witness :
    (∃ m, updateRun ⟨true, true, false⟩ (fun _ => true)
       ⟨"t", [⟨"a", .prim "1"⟩], some [], none, none⟩ =
         (.error (.validation m), ⟨true, true, false⟩, [])) ∧
    deleteRun ⟨true, true, false⟩ (fun _ => true)
       ⟨"t", [⟨"a", .prim "1"⟩], some [], none, none⟩ =
         (.error (.validation "WHERE clause is required for DELETE operation"),
          ⟨true, true, false⟩, []) :=
  ⟨(update_delete_guard ⟨true, true, false⟩ (fun _ => true)
      ⟨"t", [⟨"a", .prim "1"⟩], some [], none, none⟩).2.1 (Or.inr rfl),
   (update_delete_guard ⟨true, true, false⟩ (fun _ => true)
      ⟨"t", [⟨"a", .prim "1"⟩], some [], none, none⟩).2.2 (Or.inr rfl)⟩

/-- C10: a `limitOffset` whose `limit` is `0` contributes no LIMIT clause
and an `offset` of `0` no OFFSET clause — the generated SQL coincides with
the SQL for an absent limit/offset, on every table descriptor and on every
`buildSelectTable` result (so `findAll` with limit `0` selects every
matching row). -/
theorem limit_zero_omits_clause (t : QueryTable) (lim off : Option Int)
    (suffix : String) :
    ((buildSelectQuery { t with limitOffset := some ⟨some 0, off⟩ }
        suffix).1 =
      (buildSelectQuery { t with limitOffset := some ⟨none, off⟩ }
        suffix).1) ∧
    ((buildSelectQuery { t with limitOffset := some ⟨lim, some 0⟩ }
        suffix).1 =
      (buildSelectQuery { t with limitOffset := some ⟨lim, none⟩ }
        suffix).1) ∧
    ((buildSelectQuery { t with limitOffset := some ⟨some 0, some 0⟩ }
        suffix).1 =
      (buildSelectQuery { t with limitOffset := none } suffix).1) ∧
    (∀ tableName conds ob cols0,
      (buildSelectQuery
         (BaseService.buildSelectTable tableName conds ⟨ob, some 0, off, cols0⟩)
         suffix).1 =
      (buildSelectQuery
         (BaseService.buildSelectTable tableName conds ⟨ob, none, off, cols0⟩)
         suffix).1) := by
  refine ⟨?_, ?_, ?_, fun tableName conds ob cols0 => ?_⟩
  · cases off <;> simp [buildSelectQuery]
  · cases lim <;> simp [buildSelectQuery]
  · simp [buildSelectQuery]
  · cases off <;> simp [buildSelectQuery, BaseService.buildSelectTable]

/-- The `obj[k] = v` makes `obj[k]` read back `v`. -/
theorem alookup_aset_self {α : Type} (l : List (String × α)) (k : String)
    (v : α) : alookup (aset l k v) k = some v := by
  induction l with
  | nil => simp [aset, alookup]
  | cons p rest ih =>
    by_cases h : p.1 = k
    · simp [aset, alookup, h]
    · simpa [aset, alookup, h] using ih

/-- C8: `getService` is idempotent per (schema, table) key — a successful
call caches the instance so that an immediately following call returns the
identical reference and changes nothing; `createService` on an
already-live key likewise returns the cached reference and constructs
nothing. -/
theorem getService_idempotent :
    (∀ (st : SMState) (sc tb : String) (ok1 ok2 : Bool) (sid : Nat)
       (st1 : SMState),
       ServiceManager.getService st sc tb ok1 = (.ok sid, st1) →
       ServiceManager.getService st1 sc tb ok2 = (.ok sid, st1)) ∧
    (∀ (st : SMState) (sc tb : String) (ok0 : Bool) (sid : Nat),
       alookup st.services (createServiceKey sc tb) = some sid →
       ServiceManager.createService st sc tb ok0 = (.ok sid, st)) := by
  constructor
  · intro st sc tb ok1 ok2 sid st1 h
    cases hL : alookup st.services (createServiceKey sc tb) with
    | some s0 =>
      simp [ServiceManager.getService, hL] at h
      obtain ⟨h1, h2⟩ := h
      subst h1; subst h2
      simp [ServiceManager.getService, hL]
    | none =>
      simp [ServiceManager.getService, hL] at h
      by_cases hA :
        ((alookup st.serviceConfigs (createServiceKey sc tb)).getD
          ⟨["id"], false⟩).autoInit
      · by_cases hio : ok1
        · simp [ServiceManager.createService, hL, hA, hio] at h
          obtain ⟨h1, h2⟩ := h
          subst h1; subst h2
          simp [ServiceManager.getService, alookup_aset_self]
        · simp [ServiceManager.createService, hL, hA, hio] at h
      · simp [ServiceManager.createService, hL, hA] at h
        obtain ⟨h1, h2⟩ := h
        subst h1; subst h2
        simp [ServiceManager.getService, alookup_aset_self]
  · intro st sc tb ok0 sid h
    simp [ServiceManager.createService, h]

/-- Witness for C8: after a first `getService` constructed `core:users` as
instance 0, the second call returns instance 0 and the cache unchanged. -/
theorem getService_idempotent_witness :
    ServiceManager.getService ⟨[("core:users", 0)], [], 1⟩ "core" "users"
      false = (.ok 0, ⟨[("core:users", 0)], [], 1⟩) :=
  getService_idempotent.1 ⟨[], [], 0⟩ "core" "users" true false 0
    ⟨[("core:users", 0)], [], 1⟩ rfl

/-- C9: a resolving `BaseService.close()` closes the shared DAO and resets
the service's own flags, but leaves the manager state — in particular the
process-wide connection map — intact: the same reference stays cached
under the schema key, and `DatabaseManager.get` on that accessible key
still returns it, now reporting `isConnected() = false`, instead of
throwing not-connected. -/
theorem baseService_close_frame (w : World) (svc : ServiceState)
    (dao : Nat) (key : String) (h1 : svc.daoRef = some dao) :
    ∃ w' svc', BaseService.close w svc true = .ok (w', svc') ∧
      w'.mgr = w.mgr ∧
      svc'.isOpened = false ∧ svc'.isInitialized = false ∧
      (w'.heap dao).isConnected = false ∧
      (alookup w.mgr.connections key = some dao →
        DatabaseManager.hasAccessToDatabase w.mgr key = true →
        DatabaseManager.get w'.mgr key = (.ok dao, w'.mgr)) := by
  by_cases hOpen : (w.heap dao).hasDb ∧ (w.heap dao).isOpen
  · refine ⟨⟨w.mgr, Function.update w.heap dao
        { w.heap dao with isOpen := false, hasDb := false }⟩,
      { svc with isOpened := false, isInitialized := false,
                 eventListeners := [], errorHandlers := [] },
      ?_, rfl, rfl, rfl, ?_, ?_⟩
    · simp [BaseService.close, h1, daoClose, hOpen]
    · simp [DAOState.isConnected]
    · intro hc ha
      simp [DatabaseManager.get, ha, hc]
  · refine ⟨⟨w.mgr, Function.update w.heap dao (w.heap dao)⟩,
      { svc with isOpened := false, isInitialized := false,
                 eventListeners := [], errorHandlers := [] },
      ?_, rfl, rfl, rfl, ?_, ?_⟩
    · simp [BaseService.close, h1, daoClose, hOpen]
    · rcases Decidable.not_and_iff_or_not.mp hOpen with h | h <;>
        simp [DAOState.isConnected, h]
    · intro hc ha
      simp [DatabaseManager.get, ha, hc]

/-- Witness for C9: closing a service bound to handle 0 of `wW5` leaves the
entry for key `a` cached and `get` returning the now-closed handle. -/
theorem baseService_close_frame_witness :
    ∃ w' svc', BaseService.close wW5 ⟨some 0, true, true, [], []⟩ true =
        .ok (w', svc') ∧
      w'.mgr = wW5.mgr ∧
      svc'.isOpened = false ∧ svc'.isInitialized = false ∧
      (w'.heap 0).isConnected = false ∧
      (alookup wW5.mgr.connections "a" = some 0 →
        DatabaseManager.hasAccessToDatabase wW5.mgr "a" = true →
        DatabaseManager.get w'.mgr "a" = (.ok 0, w'.mgr)) :=
  baseService_close_frame wW5 ⟨some 0, true, true, [], []⟩ 0 "a" rfl

/-- The `indexOf`-and-successor lookup of the scanner picks exactly the
token immediately following the first `DEFAULT`. -/
theorem firstIndexOf_next_eq (ts : List String) :
    (match firstIndexOf ts "DEFAULT" with
     | some i => if i + 1 < ts.length then some (ts.getD (i + 1) "") else none
     | none => none) = claimFragments.tokenAfterFirstDefault ts := by
  induction ts with
  | nil => rfl
  | cons t rest ih =>
    by_cases ht : t = "DEFAULT"
    · subst ht
      simp only [firstIndexOf, if_pos rfl, claimFragments.tokenAfterFirstDefault]
      cases rest with
      | nil => rfl
      | cons v vs => simp [List.getD]
    · simp only [firstIndexOf, if_neg ht,
        claimFragments.tokenAfterFirstDefault]
      cases hR : firstIndexOf rest "DEFAULT" with
      | none =>
        simp only [hR] at ih
        simpa [ht] using ih
      | some i =>
        simp only [hR] at ih
        simpa [ht, Nat.succ_lt_succ_iff] using ih

/-- C7: on any raw constraint string (scanned on a fresh column, no flags
pre-set), the scanner's emitted `option_key` is exactly the fragment list
the specification describes — `PRIMARY KEY` iff `PRIMARY` present,
`AUTOINCREMENT` iff an auto-increment token and `PRIMARY` both present,
`NOT NULL` iff `NOT` and `NULL` both present, `UNIQUE` iff `UNIQUE`
present and `PRIMARY` absent, `DEFAULT t` with `t` the token after the
first `DEFAULT` — joined by spaces and trimmed. -/
theorem processColumnDefinition_matches_spec (conv : String → String)
    (nm ty s : String) :
    (processColumnDefinition conv
       ⟨nm, ty, none, none, none, none, none, none, some s⟩).option_key =
      some (jsTrim (String.intercalate " " (claimFragments s))) := by
  by_cases hs : s = ""
  · subst hs; rfl
  · by_cases hp : "PRIMARY" ∈ constraintTokens s <;>
      by_cases ha1 : "AUTO_INCREMENT" ∈ constraintTokens s <;>
      by_cases ha2 : "AUTOINCREMENT" ∈ constraintTokens s <;>
      by_cases hn1 : "NOT" ∈ constraintTokens s <;>
      by_cases hn2 : "NULL" ∈ constraintTokens s <;>
      by_cases hu : "UNIQUE" ∈ constraintTokens s <;>
      simp [processColumnDefinition, claimFragments,
        ← firstIndexOf_next_eq, hs, hp, ha1, ha2, hn1, hn2, hu]

/-- The WHERE SQL text is a function of the WHERE names alone. -/
theorem buildWhereClause_fst_of_names (clause : String)
    (ws1 ws2 : Option (List WhereClause))
    (h : whereNames ws1 = whereNames ws2) :
    (buildWhereClause ws1 clause).1 = (buildWhereClause ws2 clause).1 := by
  cases ws1 with
  | none =>
    cases ws2 with
    | none => rfl
    | some l2 => simp [whereNames] at h
  | some l1 =>
    cases ws2 with
    | none => simp [whereNames] at h
    | some l2 =>
      simp only [whereNames, Option.map_some', Option.some.injEq] at h
      cases l1 with
      | nil =>
        cases l2 with
        | nil => rfl
        | cons b bs => simp at h
      | cons a as =>
        cases l2 with
        | nil => simp at h
        | cons b bs =>
          have hmap : (a :: as).map (fun w => w.name ++ " = ?") =
              (b :: bs).map (fun w => w.name ++ " = ?") := by
            have h2 := congrArg (List.map (· ++ " = ?")) h
            simpa [List.map_map, Function.comp] using h2
          simp [buildWhereClause, hmap]

/-- Two column lists agreeing on names and on a boolean discriminator
filter to lists with the same names. -/
theorem filter_map_name_eq (p q : Column → Bool) :
    ∀ l1 l2 : List Column, l1.map Column.name = l2.map Column.name →
      l1.map p = l2.map q →
      (l1.filter p).map Column.name = (l2.filter q).map Column.name := by
  intro l1
  induction l1 with
  | nil =>
    intro l2 h _
    cases l2 with
    | nil => rfl
    | cons b bs => simp at h
  | cons a as ih =>
    intro l2 h hpq
    cases l2 with
    | nil => simp at h
    | cons b bs =>
      simp only [List.map_cons, List.cons.injEq] at h hpq
      obtain ⟨hn, hns⟩ := h
      obtain ⟨hpb, hpqs⟩ := hpq
      by_cases hpa : p a = true
      · have hqb : q b = true := hpb ▸ hpa
        simp [List.filter_cons, hpa, hqb, hn, ih bs hns hpqs]
      · have hqb : ¬ q b = true := hpb ▸ hpa
        simp [List.filter_cons, hpa, hqb, ih bs hns hpqs]

/-- Lists of equal length map to the same constant list. -/
theorem map_const_eq {α β : Type} (b : β) :
    ∀ l1 l2 : List α, l1.length = l2.length →
      l1.map (fun _ => b) = l2.map (fun _ => b) := by
  intro l1
  induction l1 with
  | nil =>
    intro l2 h
    cases l2 with
    | nil => rfl
    | cons x xs => simp at h
  | cons x xs ih =>
    intro l2 h
    cases l2 with
    | nil => simp at h
    | cons y ys =>
      simp only [List.length_cons, Nat.add_right_cancel_iff] at h
      simp [ih ys h]

/-- The `some(w => w.name === nm)` depends only on the WHERE names. -/
theorem any_name_eq (ws1 ws2 : List WhereClause)
    (h : ws1.map WhereClause.name = ws2.map WhereClause.name) (nm : String) :
    ws1.any (fun w => w.name = nm) = ws2.any (fun w => w.name = nm) := by
  induction ws1 generalizing ws2 with
  | nil =>
    cases ws2 with
    | nil => rfl
    | cons b bs => simp at h
  | cons a as ih =>
    cases ws2 with
    | nil => simp at h
    | cons b bs =>
      simp only [List.map_cons, List.cons.injEq] at h
      obtain ⟨hn, hns⟩ := h
      simp [List.any_cons, hn, ih bs hns]

/-- The optional WHERE lists flattened by `getD` keep equal names. -/
theorem getD_names_eq (ws1 ws2 : Option (List WhereClause))
    (h : whereNames ws1 = whereNames ws2) :
    (ws1.getD []).map WhereClause.name = (ws2.getD []).map WhereClause.name := by
  match ws1, ws2 with
  | none, none => rfl
  | none, some l2 => simp [whereNames] at h
  | some l1, none => simp [whereNames] at h
  | some l1, some l2 => simpa [whereNames] using h

/-- The SET discriminator of `update` depends only on names, definedness
and the WHERE names. -/
theorem map_updateKeep_eq (ws1 ws2 : List WhereClause)
    (hw : ws1.map WhereClause.name = ws2.map WhereClause.name) :
    ∀ l1 l2 : List Column, l1.map Column.name = l2.map Column.name →
      l1.map hasDefinedValue = l2.map hasDefinedValue →
      l1.map (updateKeep ws1) = l2.map (updateKeep ws2) := by
  intro l1
  induction l1 with
  | nil =>
    intro l2 h _
    cases l2 with
    | nil => rfl
    | cons b bs => simp at h
  | cons a as ih =>
    intro l2 h hd
    cases l2 with
    | nil => simp at h
    | cons b bs =>
      simp only [List.map_cons, List.cons.injEq] at h hd
      obtain ⟨hn, hns⟩ := h
      obtain ⟨hdb, hds⟩ := hd
      have hany := any_name_eq ws1 ws2 hw b.name
      simp only [List.map_cons, List.cons.injEq]
      refine ⟨?_, ih bs hns hds⟩
      simp [updateKeep, hdb, hn, hany]

/-- C2 (amended): the SQL text of every declarative builder depends only on
the statement shape — table name, column names, WHERE names, ORDER BY,
LIMIT/OFFSET — plus, for `insert` and `update`, on which column values are
defined (`insert` drops `undefined`/`null` values, `update` drops
`undefined` ones): WHERE values never influence the SQL text at all, and
all values travel exclusively in the parameter list. -/
theorem sql_shape_value_independent :
    (∀ (ws1 ws2 : Option (List WhereClause)) (clause : String),
       whereNames ws1 = whereNames ws2 →
       (buildWhereClause ws1 clause).1 = (buildWhereClause ws2 clause).1) ∧
    (∀ (t1 t2 : QueryTable) (suffix : String),
       t1.name = t2.name →
       t1.cols.map Column.name = t2.cols.map Column.name →
       whereNames t1.wheres = whereNames t2.wheres →
       t1.orderbys = t2.orderbys → t1.limitOffset = t2.limitOffset →
       (buildSelectQuery t1 suffix).1 = (buildSelectQuery t2 suffix).1) ∧
    (∀ t1 t2 : QueryTable,
       t1.name = t2.name →
       t1.cols.map Column.name = t2.cols.map Column.name →
       t1.cols.map insertKeep = t2.cols.map insertKeep →
       stmtSql (insertStmt t1) = stmtSql (insertStmt t2)) ∧
    (∀ t1 t2 : QueryTable,
       t1.name = t2.name →
       t1.cols.map Column.name = t2.cols.map Column.name →
       t1.cols.map hasDefinedValue = t2.cols.map hasDefinedValue →
       whereNames t1.wheres = whereNames t2.wheres →
       stmtSql (updateStmt t1) = stmtSql (updateStmt t2)) ∧
    (∀ t1 t2 : QueryTable,
       t1.name = t2.name → whereNames t1.wheres = whereNames t2.wheres →
       stmtSql (deleteStmt t1) = stmtSql (deleteStmt t2)) := by
  refine ⟨fun ws1 ws2 clause h =>
    buildWhereClause_fst_of_names clause ws1 ws2 h, ?_, ?_, ?_, ?_⟩
  · intro t1 t2 suffix hname hcols hw ho hl
    have hwsql := buildWhereClause_fst_of_names "WHERE" t1.wheres t2.wheres hw
    have hlen : t1.cols.length = t2.cols.length := by
      have := congrArg List.length hcols
      simpa using this
    simp [buildSelectQuery, hname, hcols, hwsql, ho, hl, hlen]
  · intro t1 t2 hname hcols hk
    have hfil : (insertValidCols t1.cols).map Column.name =
        (insertValidCols t2.cols).map Column.name :=
      filter_map_name_eq insertKeep insertKeep t1.cols t2.cols hcols hk
    have hlen : (insertValidCols t1.cols).length =
        (insertValidCols t2.cols).length := by
      have h1 := congrArg List.length hfil
      simpa using h1
    have hq := map_const_eq "?" (insertValidCols t1.cols)
      (insertValidCols t2.cols) hlen
    simp only [insertStmt, stmtSql]
    by_cases h0 : (insertValidCols t1.cols).length = 0
    · have h0' : (insertValidCols t2.cols).length = 0 := hlen ▸ h0
      simp [h0, h0']
    · have h0' : ¬ (insertValidCols t2.cols).length = 0 := by
        rw [← hlen]; exact h0
      simp [h0, h0', hname, hfil, hq, Except.map]
  · intro t1 t2 hname hcols hd hw
    have hwn := getD_names_eq t1.wheres t2.wheres hw
    have hkeep := map_updateKeep_eq (t1.wheres.getD []) (t2.wheres.getD [])
      hwn t1.cols t2.cols hcols hd
    have hfil : (updateSetCols t1).map Column.name =
        (updateSetCols t2).map Column.name :=
      filter_map_name_eq (updateKeep (t1.wheres.getD []))
        (updateKeep (t2.wheres.getD [])) t1.cols t2.cols hcols hkeep
    have hwsql := buildWhereClause_fst_of_names "WHERE" t1.wheres t2.wheres hw
    have hlen : (updateSetCols t1).length = (updateSetCols t2).length := by
      have h1 := congrArg List.length hfil
      simpa using h1
    have hset : (updateSetCols t1).map (fun c => c.name ++ " = ?") =
        (updateSetCols t2).map (fun c => c.name ++ " = ?") := by
      have h1 := congrArg (List.map (· ++ " = ?")) hfil
      simpa [List.map_map, Function.comp] using h1
    simp only [updateStmt, stmtSql]
    by_cases h0 : (updateSetCols t1).length = 0
    · have h0' : (updateSetCols t2).length = 0 := hlen ▸ h0
      simp [h0, h0']
    · have h0' : ¬ (updateSetCols t2).length = 0 := by
        rw [← hlen]; exact h0
      by_cases hz : (buildWhereClause t1.wheres "WHERE").1 = ""
      · have hz' : (buildWhereClause t2.wheres "WHERE").1 = "" := by
          rw [← hwsql]; exact hz
        simp [h0, h0', hz, hz']
      · have hz' : ¬ (buildWhereClause t2.wheres "WHERE").1 = "" := by
          rw [← hwsql]; exact hz
        simp [h0, h0', hz, hz', hname, hset, hwsql, Except.map]
  · intro t1 t2 hname hw
    have hwsql := buildWhereClause_fst_of_names "WHERE" t1.wheres t2.wheres hw
    simp only [deleteStmt, stmtSql]
    by_cases hz : (buildWhereClause t1.wheres "WHERE").1 = ""
    · have hz' : (buildWhereClause t2.wheres "WHERE").1 = "" := by
        rw [← hwsql]; exact hz
      simp [hz, hz']
    · have hz' : ¬ (buildWhereClause t2.wheres "WHERE").1 = "" := by
        rw [← hwsql]; exact hz
      simp [hz, hz', hname, hwsql, Except.map]

/-- Witness for C2: a WHERE value made of a quote-free SQL fragment binds
as a parameter without altering the DELETE statement's shape. -/
theorem sql_shape_value_independent_witness :
    stmtSql (deleteStmt tDel1) = stmtSql (deleteStmt tDel2) :=
  sql_shape_value_independent.2.2.2.2 tDel1 tDel2 rfl rfl

/-- Counterexample to C2 as stated: two insert tables differing only in one
column value (`null` versus a defined string) produce different SQL texts,
because `insert` drops `undefined`/`null` columns from the statement. -/
theorem sql_shape_value_independent_counterexample :
    differOnlyInValues tIns1 tIns2 ∧
    stmtSql (insertStmt tIns1) = .ok "INSERT INTO t (a) VALUES (?)" ∧
    stmtSql (insertStmt tIns2) =
      .ok "INSERT INTO t (a, b) VALUES (?, ?)" ∧
    ("INSERT INTO t (a) VALUES (?)" : String) ≠
      "INSERT INTO t (a, b) VALUES (?, ?)" := by
  exact ⟨⟨rfl, rfl, rfl, rfl, rfl⟩, rfl, rfl, by decide⟩

/-- The `Set.add` keeps earlier members. -/
theorem mem_setAdd_of_mem {l : List String} {x y : String} (hx : x ∈ l) :
    x ∈ setAdd l y := by
  by_cases h : y ∈ l <;> simp [setAdd, h, hx]

/-- Folding `Set.add` over a list keeps earlier members. -/
theorem mem_foldl_setAdd (xs : List String) {acc : List String} {x : String}
    (hx : x ∈ acc) : x ∈ xs.foldl setAdd acc := by
  induction xs generalizing acc with
  | nil => exact hx
  | cons d ds ih => exact ih (mem_setAdd_of_mem hx)

/-- Adding one role's databases keeps earlier members. -/
theorem mem_addRoleDatabases (reg : List (String × RoleConfig))
    {acc : List String} {x : String} (r : String) (hx : x ∈ acc) :
    x ∈ addRoleDatabases reg acc r := by
  unfold addRoleDatabases
  cases alookup reg r with
  | none => exact hx
  | some rc => exact mem_foldl_setAdd _ hx

/-- The whole wanted-set fold keeps earlier members. -/
theorem mem_foldl_addRoleDatabases (reg : List (String × RoleConfig))
    (roles : List String) {acc : List String} {x : String} (hx : x ∈ acc) :
    x ∈ roles.foldl (addRoleDatabases reg) acc := by
  induction roles generalizing acc with
  | nil => exact hx
  | cons r rs ih => exact ih (mem_addRoleDatabases reg r hx)

/-- The default key `core` belongs to every wanted set. -/
theorem core_mem_wantedSet (reg : List (String × RoleConfig))
    (roles : List String) : "core" ∈ wantedSet reg roles := by
  unfold wantedSet
  exact mem_foldl_addRoleDatabases reg roles (by simp [setAdd])

/-- Every event in the open-phase trace is an `opened` event. -/
theorem initLoop_opens (schemas : List String)
    (openOk isReq : String → Bool) :
    ∀ (l : List String) (conns : List (String × Nat)) (nd : Nat),
      ∀ e ∈ (initLoop schemas openOk isReq l conns nd).2.2.1,
        ∃ k, e = DMEvent.opened k := by
  intro l
  induction l with
  | nil => intro conns nd e he; simp [initLoop] at he
  | cons dbKey rest ih =>
    intro conns nd e he
    by_cases h1 : (alookup conns dbKey).isSome
    · rw [initLoop, if_pos h1] at he
      exact ih conns nd e he
    · by_cases h2 : schemas.contains dbKey ∧ openOk dbKey
      · rw [initLoop, if_neg h1, if_pos h2] at he
        simp only [List.mem_cons] at he
        rcases he with he | he
        · exact ⟨dbKey, he⟩
        · exact ih _ _ e he
      · rw [initLoop, if_neg h1, if_neg h2] at he
        exact ih _ _ e he

/-- Every event in the close-phase trace is a `closedEv` event for a key
of the closed list. -/
theorem closeLoop_closes (closeOk : String → Bool) :
    ∀ (l : List String) (conns : List (String × Nat)),
      ∀ e ∈ (closeLoop closeOk l conns).2,
        ∃ k, e = DMEvent.closedEv k ∧ k ∈ l := by
  intro l
  induction l with
  | nil => intro conns e he; simp [closeLoop] at he
  | cons dbKey rest ih =>
    intro conns e he
    by_cases h1 : (alookup conns dbKey).isSome
    · by_cases h2 : closeOk dbKey
      · rw [closeLoop, if_pos h1, if_pos h2] at he
        simp only [List.mem_cons] at he
        rcases he with he | he
        · exact ⟨dbKey, he, List.mem_cons_self dbKey rest⟩
        · obtain ⟨k, hk, hkl⟩ := ih _ e he
          exact ⟨k, hk, List.mem_cons_of_mem _ hkl⟩
      · rw [closeLoop, if_pos h1, if_neg h2] at he
        simp only [List.mem_cons] at he
        rcases he with he | he
        · exact ⟨dbKey, he, List.mem_cons_self dbKey rest⟩
        · obtain ⟨k, hk, hkl⟩ := ih _ e he
          exact ⟨k, hk, List.mem_cons_of_mem _ hkl⟩
    · rw [closeLoop, if_neg h1] at he
      obtain ⟨k, hk, hkl⟩ := ih _ e he
      exact ⟨k, hk, List.mem_cons_of_mem _ hkl⟩

/-- Every event of the open phase of a role switch is an `opened` event. -/
theorem initializeUserRoleConnections_opens (s1 : DBMState)
    (openOk : String → Bool) :
    ∀ e ∈ (initializeUserRoleConnections s1 openOk).2.1,
      ∃ k, e = DMEvent.opened k := by
  intro e he
  dsimp only [initializeUserRoleConnections] at he
  exact initLoop_opens _ _ _ _ _ _ e he

/-- Every event of the close phase is a `closedEv` event for a key wanted
before but no longer wanted now. -/
theorem cleanupUnusedConnections_closes (s2 : DBMState)
    (closeOk : String → Bool) (prevRoles : List String) :
    ∀ e ∈ (cleanupUnusedConnections s2 closeOk prevRoles).2,
      ∃ k, e = DMEvent.closedEv k ∧
        k ∈ wantedSet s2.roleRegistry prevRoles ∧
        k ∉ wantedSet s2.roleRegistry s2.currentUserRoles := by
  intro e he
  dsimp only [cleanupUnusedConnections] at he
  obtain ⟨k, hk, hkl⟩ := closeLoop_closes closeOk _ _ e he
  refine ⟨k, hk, (List.mem_filter.mp hkl).1, ?_⟩
  have hpred := (List.mem_filter.mp hkl).2
  rw [DatabaseManager.getCurrentUserDatabases] at hpred
  intro hmem
  simp at hpred
  exact hpred (by simpa using hmem)

/-- The open phase never touches the role registry or the active roles. -/
theorem initializeUserRoleConnections_preserves (s1 : DBMState)
    (openOk : String → Bool) :
    (initializeUserRoleConnections s1 openOk).1.roleRegistry =
        s1.roleRegistry ∧
      (initializeUserRoleConnections s1 openOk).1.currentUserRoles =
        s1.currentUserRoles := by
  dsimp only [initializeUserRoleConnections]
  exact ⟨rfl, rfl⟩

/-- C3: whenever `setCurrentUserRoles` succeeds, the produced connection
trace is an open phase fully preceding a close phase (opens awaited before
any close starts), and no key wanted both before and after the switch —
the default `core` key among them — is ever closed. -/
theorem setCurrentUserRoles_two_phase (s : DBMState)
    (openOk closeOk : String → Bool) (userRoles : List String)
    (primaryRole : Option String) (s' : DBMState) (tr : List DMEvent)
    (h : DatabaseManager.setCurrentUserRoles s openOk closeOk userRoles
           primaryRole = (.ok (), s', tr)) :
    (∃ opens closes, tr = opens ++ closes ∧
       (∀ e ∈ opens, ∃ k, e = DMEvent.opened k) ∧
       (∀ e ∈ closes, ∃ k, e = DMEvent.closedEv k)) ∧
    (∀ k, k ∈ wantedSet s.roleRegistry s.currentUserRoles →
       k ∈ wantedSet s.roleRegistry userRoles →
       DMEvent.closedEv k ∉ tr) ∧
    DMEvent.closedEv "core" ∉ tr := by
  unfold DatabaseManager.setCurrentUserRoles at h
  split at h
  · simp at h
  · dsimp only at h
    split at h
    · simp at h
    · simp only [Prod.mk.injEq] at h
      obtain ⟨-, hs3, htr⟩ := h
      subst htr
      have hOpens := initializeUserRoleConnections_opens
        { s with
          currentUserRoles := userRoles,
          currentRole := primaryRole.orElse (fun _ => userRoles.head?) }
        openOk
      have hPres := initializeUserRoleConnections_preserves
        { s with
          currentUserRoles := userRoles,
          currentRole := primaryRole.orElse (fun _ => userRoles.head?) }
        openOk
      have hCloses := cleanupUnusedConnections_closes
        (initializeUserRoleConnections
          { s with
            currentUserRoles := userRoles,
            currentRole := primaryRole.orElse (fun _ => userRoles.head?) }
          openOk).1 closeOk s.currentUserRoles
      rw [hPres.1, hPres.2] at hCloses
      refine ⟨⟨_, _, rfl, hOpens, fun e he => (hCloses e he).imp
        (fun k hk => hk.1)⟩, ?_, ?_⟩
      · intro k hkPrev hkNew hmem
        rcases List.mem_append.mp hmem with hmem | hmem
        · obtain ⟨k2, hk2⟩ := hOpens _ hmem
          exact DMEvent.noConfusion hk2
        · obtain ⟨k2, hk2, -, hnot⟩ := hCloses _ hmem
          cases hk2
          exact hnot hkNew
      · intro hmem
        rcases List.mem_append.mp hmem with hmem | hmem
        · obtain ⟨k2, hk2⟩ := hOpens _ hmem
          exact DMEvent.noConfusion hk2
        · obtain ⟨k2, hk2, -, hnot⟩ := hCloses _ hmem
          cases hk2
          exact hnot (core_mem_wantedSet s.roleRegistry userRoles)

/-- Witness for C3: switching `sW3` from role `r1` to `r2` opens `b`, then
closes `a`, and never closes `core`. -/
theorem setCurrentUserRoles_two_phase_witness :
    DMEvent.closedEv "core" ∉
      [DMEvent.opened "b", DMEvent.closedEv "a"] :=
  (setCurrentUserRoles_two_phase sW3 (fun _ => true) (fun _ => true)
    ["r2"] none sW3' [DMEvent.opened "b", DMEvent.closedEv "a"] rfl).2.2

/-- C5 (amended): when the callback or any commit fails inside
`executeCrossSchemaTransaction`, the `catch` block runs the rollback
fan-out over every named handle; the original triggering error is rethrown
exactly when every rollback succeeds — a failing rollback's own error
propagates out of the `catch` and replaces the original error. -/
theorem crossTx_error_propagation :
    (∀ (w : World) (daos : List (String × Nat)) (engR : Nat → String → Bool)
       (original : CrossErr),
       ((txPhase rollbackTransaction engR w.heap daos).2 = [] →
          rollbackAndRethrow w daos engR original =
            (.error original,
             ⟨w.mgr, (txPhase rollbackTransaction engR w.heap daos).1⟩)) ∧
       (∀ dao e rest,
          (txPhase rollbackTransaction engR w.heap daos).2 =
              (dao, e) :: rest →
          rollbackAndRethrow w daos engR original =
            (.error (.daoError dao e),
             ⟨w.mgr, (txPhase rollbackTransaction engR w.heap daos).1⟩))) ∧
    (∀ (w : World) (keys : List String) (cb : Except String Unit)
       (engB engC engR : Nat → String → Bool) (daos : List (String × Nat)),
       keys.find?
           (fun k => ¬ DatabaseManager.hasAccessToDatabase w.mgr k) = none →
       resolveDaos w.mgr keys = .ok daos →
       (txPhase beginTransaction engB w.heap daos).2 = [] →
       ((∀ m, cb = .error m →
          DatabaseManager.executeCrossSchemaTransaction w keys cb
              engB engC engR =
            rollbackAndRethrow
              ⟨w.mgr, (txPhase beginTransaction engB w.heap daos).1⟩
              daos engR (.cbError m)) ∧
        (∀ dao e rest, cb = .ok () →
          (txPhase commitTransaction engC
              (txPhase beginTransaction engB w.heap daos).1 daos).2 =
            (dao, e) :: rest →
          DatabaseManager.executeCrossSchemaTransaction w keys cb
              engB engC engR =
            rollbackAndRethrow
              ⟨w.mgr, (txPhase commitTransaction engC
                 (txPhase beginTransaction engB w.heap daos).1 daos).1⟩
              daos engR (.daoError dao e)))) := by
  constructor
  · intro w daos engR original
    constructor
    · intro hEmpty
      dsimp only [rollbackAndRethrow]
      rw [hEmpty]
    · intro dao e rest hCons
      dsimp only [rollbackAndRethrow]
      rw [hCons]
  · intro w keys cb engB engC engR daos hFind hRes hBegin
    constructor
    · intro m hcb
      subst hcb
      unfold DatabaseManager.executeCrossSchemaTransaction
      rw [hFind, hRes]
      dsimp only
      rw [hBegin]
    · intro dao e rest hcb hCommit
      subst hcb
      unfold DatabaseManager.executeCrossSchemaTransaction
      rw [hFind, hRes]
      dsimp only
      rw [hBegin, hCommit]

/-- Witness for C5: on `wW5` with a rejecting callback and a healthy
engine, both handles are rolled back and the callback's own error is the
one rethrown. -/
theorem crossTx_error_propagation_witness :
    DatabaseManager.executeCrossSchemaTransaction wW5 ["a", "b"]
        (.error "boom") (fun _ _ => true) (fun _ _ => true)
        (fun _ _ => true) =
      rollbackAndRethrow
        ⟨wW5.mgr, (txPhase beginTransaction (fun _ _ => true) wW5.heap
           [("a", 0), ("b", 1)]).1⟩
        [("a", 0), ("b", 1)] (fun _ _ => true) (.cbError "boom") :=
  ((crossTx_error_propagation.2 wW5 ["a", "b"] (.error "boom")
      (fun _ _ => true) (fun _ _ => true) (fun _ _ => true)
      [("a", 0), ("b", 1)] rfl rfl rfl).1 "boom" rfl)

/-- Counterexample to C5 as stated: on `wW5`, the commit of handle 1 fails
with an engine error — the original triggering error — yet the call
rethrows the guard failure of handle 0's rollback (`noTransaction`,
because handle 0 had already committed), so a rollback failure replaces
the original error. -/
theorem crossTx_rollback_replaces_counterexample :
    (txPhase commitTransaction (fun dao _ => dao = 0)
        (txPhase beginTransaction (fun _ _ => true) wW5.heap
          [("a", 0), ("b", 1)]).1 [("a", 0), ("b", 1)]).2 =
      [(1, .engine "COMMIT")] ∧
    (DatabaseManager.executeCrossSchemaTransaction wW5 ["a", "b"] (.ok ())
        (fun _ _ => true) (fun dao _ => dao = 0) (fun _ _ => true)).1 =
      .error (.daoError 0 .noTransaction) ∧
    CrossErr.daoError 0 DAOErr.noTransaction ≠
      CrossErr.daoError 1 (DAOErr.engine "COMMIT") := by
  refine ⟨rfl, rfl, by decide⟩

end DaoSvc
